import Mathlib

set_option maxHeartbeats 1000000

namespace RxVsSignal

/-! ## Data model

A shallow embedding of the rx-vs-signal demo: the `Note` entity, the tRPC
`noteRouter` operations over the persisted table, the two client-side note
filters, and small-step state machines for the stream-based and the
signal-based `NoteDataClient`.  JS strings are Lean `String`s; the locale
rendering of a timestamp (`new Date(x).toLocaleDateString()`) is kept
abstract as a parameter `fmt : String → String`. -/

/-- A user note as exchanged with the server: integer id, note text, owning
username, and the server-assigned creation timestamp kept abstract as its
serialized string. -/
structure Note where
  id : Int
  note : String
  person : String
  createdAt : String
deriving DecidableEq

/-- Modelled from the spec: the database layer (schema file and drizzle
configuration) is not among the source files; per the spec the persisted
table has an auto-incrementing integer identifier, a text note, a text
person and a default-now timestamp.  A stored row therefore carries a
numeric identifier, so the unary-plus coercion applied by the list
operation is the identity on this numeric model. -/
structure DbRow where
  id : Int
  note : String
  person : String
  createdAt : String
deriving DecidableEq

/-- The JS unary-plus coercion applied by the list route as `+note.id`;
on the numeric model of row identifiers it is the identity. -/
def numCoerce (i : Int) : Int := i

/-- The spread-and-coerce projection performed by the list route on each
selected row. -/
def rowToNote (r : DbRow) : Note :=
  ⟨numCoerce r.id, r.note, r.person, r.createdAt⟩

/-- The list procedure of the note router: select, in table order, the rows
whose person column equals the input, and coerce each id to a number. -/
def noteRouterList (db : List DbRow) (person : String) : List Note :=
  (db.filter (fun r => r.person == person)).map rowToNote

/-- The remove procedure of the note router: delete the rows whose id equals
the input and return them; the result pairs the table after deletion with
the deleted rows. -/
def noteRouterRemove (db : List DbRow) (i : Int) : List DbRow × List DbRow :=
  (db.filter (fun r => !(r.id == i)), db.filter (fun r => r.id == i))

/-- The create procedure of the note router: insert a row with the given
text and person, the next auto-increment identifier, and the server clock,
returning the inserted row(s). -/
def noteRouterCreate (db : List DbRow) (nextId : Int) (txt person now : String) :
    List DbRow × List DbRow :=
  (db ++ [⟨nextId, txt, person, now⟩], [⟨nextId, txt, person, now⟩])

/-- C2: the server list operation returns, in table order, exactly the
stored notes whose person field equals the given username, each with its id
coerced to a number. -/
theorem noteRouterList_exact (db : List DbRow) (p : String) :
    (∀ n, n ∈ noteRouterList db p ↔ ∃ r, r ∈ db ∧ r.person = p ∧ n = rowToNote r) ∧
    (noteRouterList db p).Sublist (db.map rowToNote) ∧
    (∀ n ∈ noteRouterList db p, n.person = p) := by
  refine ⟨?_, ?_, ?_⟩
  · intro n
    simp only [noteRouterList, List.mem_map, List.mem_filter, beq_iff_eq]
    constructor
    · rintro ⟨r, ⟨hr, hp⟩, rfl⟩
      exact ⟨r, hr, hp, rfl⟩
    · rintro ⟨r, hr, hp, rfl⟩
      exact ⟨r, ⟨hr, hp⟩, rfl⟩
  · exact (db.filter_sublist).map rowToNote
  · intro n hn
    simp only [noteRouterList, List.mem_map, List.mem_filter, beq_iff_eq] at hn
    rcases hn with ⟨r, ⟨_, hp⟩, rfl⟩
    simpa [rowToNote] using hp

/-- Witness for C2 at a concrete table and username. -/
theorem noteRouterList_exact_witness :
    rowToNote ⟨3, "a", "bob", "d1"⟩ ∈
      noteRouterList [⟨3, "a", "bob", "d1"⟩, ⟨4, "b", "eve", "d2"⟩] "bob" :=
  ((noteRouterList_exact [⟨3, "a", "bob", "d1"⟩, ⟨4, "b", "eve", "d2"⟩] "bob").1 _).mpr
    ⟨⟨3, "a", "bob", "d1"⟩, by decide, rfl, rfl⟩

/-- C7: the server remove operation deletes exactly the stored notes whose
id equals the given identifier and returns the deleted row(s); every note
with a different id is left in the table, in its original order. -/
theorem noteRouterRemove_exact (db : List DbRow) (i : Int) :
    (∀ r, r ∈ (noteRouterRemove db i).2 ↔ r ∈ db ∧ r.id = i) ∧
    (∀ r, r ∈ (noteRouterRemove db i).1 ↔ r ∈ db ∧ r.id ≠ i) ∧
    ((noteRouterRemove db i).1).Sublist db ∧
    (∀ r ∈ db, r.id ≠ i → r ∈ (noteRouterRemove db i).1) := by
  refine ⟨?_, ?_, ?_, ?_⟩
  · intro r
    simp [noteRouterRemove, List.mem_filter]
  · intro r
    simp [noteRouterRemove, List.mem_filter]
  · exact db.filter_sublist
  · intro r hr hne
    simp [noteRouterRemove, List.mem_filter, hr, hne]

/-- Witness for C7 at a concrete table and identifier. -/
theorem noteRouterRemove_exact_witness :
    DbRow.mk 4 "b" "eve" "d2" ∈
      (noteRouterRemove [⟨3, "a", "bob", "d1"⟩, ⟨4, "b", "eve", "d2"⟩] 3).1 :=
  (noteRouterRemove_exact [⟨3, "a", "bob", "d1"⟩, ⟨4, "b", "eve", "d2"⟩] 3).2.2.2
    ⟨4, "b", "eve", "d2"⟩ (by decide) (by decide)

/-! ## Client-side filtering

Both clients lowercase the filter term, split it on spaces, drop the empty
fragments, and keep a note when every fragment occurs in the note's
lowercased text or its lowercased locale date string.  String primitives are
embedded characterwise over `List Char`. -/

/-- JS lowercasing of a string, characterwise. -/
def lowerData (s : String) : List Char := s.data.map Char.toLower

/-- JS substring test: the pattern occurs contiguously in the haystack. -/
def includesL (hay pat : List Char) : Bool := decide (pat <:+: hay)

/-- JS splitting of a string on a single-character separator: empty
fragments between consecutive separators and at the ends are kept. -/
def splitCh (c : Char) : List Char → List (List Char)
  | [] => [[]]
  | x :: xs =>
    if x = c then [] :: splitCh c xs
    else
      match splitCh c xs with
      | [] => [[x]]
      | y :: ys => (x :: y) :: ys

/-- The non-empty lowercased search fragments of a filter term, computed
identically by both clients. -/
def searchTerms (term : String) : List (List Char) :=
  (splitCh ' ' (lowerData term)).filter (fun t => !t.isEmpty)

/-- The private filterNotes of the stream-based client: empty term returns
the list as is; otherwise keep the notes in which every search fragment
occurs in the lowercased text or in the lowercased locale date string. -/
def filterNotes (fmt : String → String) (notes : List Note) (term : String) :
    List Note :=
  if term = "" then notes
  else
    notes.filter (fun note =>
      let noteContent := lowerData note.note
      let noteDate := lowerData (fmt note.createdAt)
      (searchTerms term).all (fun t =>
        includesL noteContent t || includesL noteDate t))

/-- The filteredNotes computed signal of the signal-based client: with no
search fragments return the list as is; otherwise keep the notes in which
every fragment occurs in the lowercased text, a space, and the lowercased
locale date string, concatenated. -/
def filteredNotesOf (fmt : String → String) (notes : List Note) (filterText : String) :
    List Note :=
  if (searchTerms filterText).isEmpty then notes
  else
    notes.filter (fun item =>
      let lowerItem := lowerData item.note ++ ' ' :: lowerData (fmt item.createdAt)
      (searchTerms filterText).all (fun t => includesL lowerItem t))

theorem splitCh_sep_not_mem (c : Char) (l : List Char) :
    ∀ t ∈ splitCh c l, c ∉ t := by
  induction l with
  | nil =>
    intro t ht
    simp only [splitCh, List.mem_singleton] at ht
    subst ht
    exact List.not_mem_nil c
  | cons x xs ih =>
    intro t ht
    by_cases hx : x = c
    · rw [splitCh, if_pos hx] at ht
      rcases List.mem_cons.mp ht with rfl | h
      · exact List.not_mem_nil c
      · exact ih t h
    · rw [splitCh, if_neg hx] at ht
      cases hsp : splitCh c xs with
      | nil =>
        rw [hsp, List.mem_singleton] at ht
        subst ht
        intro hmem
        rcases List.mem_cons.mp hmem with rfl | h
        · exact hx rfl
        · exact List.not_mem_nil c h
      | cons y ys =>
        rw [hsp] at ht
        rcases List.mem_cons.mp ht with rfl | h
        · intro hmem
          rcases List.mem_cons.mp hmem with rfl | h
          · exact hx rfl
          · exact ih y (hsp ▸ List.mem_cons_self y ys) h
        · exact ih t (hsp ▸ List.mem_cons_of_mem y h)

theorem prefix_of_sep_not_mem {α : Type} {t u v : List α} {c : α}
    (hc : c ∉ t) (h : t <+: u ++ c :: v) : t <+: u := by
  induction u generalizing t with
  | nil =>
    rcases List.prefix_cons_iff.mp h with rfl | ⟨s, rfl, _⟩
    · exact List.nil_prefix
    · exact absurd (List.mem_cons_self c s) hc
  | cons a u ih =>
    rw [List.cons_append] at h
    rcases List.prefix_cons_iff.mp h with rfl | ⟨s, rfl, hs⟩
    · exact List.nil_prefix
    · have hcs : c ∉ s := fun hm => hc (List.mem_cons_of_mem a hm)
      exact List.cons_prefix_cons.mpr ⟨rfl, ih hcs hs⟩

theorem infix_append_sep_iff {α : Type} {t u v : List α} {c : α} (hc : c ∉ t) :
    t <:+: u ++ c :: v ↔ t <:+: u ∨ t <:+: v := by
  constructor
  · intro h
    induction u generalizing t with
    | nil =>
      rcases List.infix_cons_iff.mp h with hp | hi
      · rcases List.prefix_cons_iff.mp hp with rfl | ⟨s, rfl, _⟩
        · exact Or.inl List.nil_infix
        · exact absurd (List.mem_cons_self c s) hc
      · exact Or.inr hi
    | cons a u ih =>
      rw [List.cons_append] at h
      rcases List.infix_cons_iff.mp h with hp | hi
      · exact Or.inl (prefix_of_sep_not_mem hc hp).isInfix
      · rcases ih hc hi with h1 | h2
        · exact Or.inl (List.infix_cons h1)
        · exact Or.inr h2
  · rintro (h | h)
    · exact h.trans (u.prefix_append (c :: v)).isInfix
    · exact h.trans ((List.suffix_cons c v).trans (u.suffix_append (c :: v))).isInfix

theorem includesL_append_sep {a b t : List Char} (hc : ' ' ∉ t) :
    includesL (a ++ ' ' :: b) t = (includesL a t || includesL b t) := by
  simp only [includesL, ← Bool.decide_or]
  exact decide_eq_decide.mpr (infix_append_sep_iff hc)

theorem searchTerms_no_space (term : String) :
    ∀ t ∈ searchTerms term, ' ' ∉ t := by
  intro t ht
  exact splitCh_sep_not_mem ' ' (lowerData term) t (List.mem_of_mem_filter ht)

theorem all_congr_of_mem {α : Type} {l : List α} {p q : α → Bool}
    (h : ∀ a ∈ l, p a = q a) : l.all p = l.all q := by
  induction l with
  | nil => rfl
  | cons a l ih =>
    rw [List.all_cons, List.all_cons, h a (List.mem_cons_self a l),
      ih (fun b hb => h b (List.mem_cons_of_mem a hb))]

theorem filterNotes_eq_filteredNotesOf (fmt : String → String)
    (notes : List Note) (term : String) :
    filterNotes fmt notes term = filteredNotesOf fmt notes term := by
  unfold filterNotes filteredNotesOf
  by_cases h0 : term = ""
  · subst h0
    have he : searchTerms "" = [] := rfl
    simp [he]
  · rw [if_neg h0]
    by_cases he : (searchTerms term).isEmpty
    · have hst : searchTerms term = [] := List.isEmpty_iff.mp he
      rw [if_pos he]
      simp [hst]
    · rw [if_neg he]
      refine List.filter_congr ?_
      intro n _
      show (searchTerms term).all (fun t =>
          includesL (lowerData n.note) t || includesL (lowerData (fmt n.createdAt)) t)
        = (searchTerms term).all (fun t =>
          includesL (lowerData n.note ++ ' ' :: lowerData (fmt n.createdAt)) t)
      refine all_congr_of_mem ?_
      intro t ht
      exact (includesL_append_sep (searchTerms_no_space term t ht)).symm

/-- C6: the stream-based and the signal-based clients are interchangeable in
their client-side filtering: for every date rendering, list of notes and
filter term, the stream client's per-part substring filter and the signal
client's concatenation-based filter produce the same filtered list. -/
theorem filters_interchangeable (fmt : String → String)
    (notes : List Note) (term : String) :
    filterNotes fmt notes term = filteredNotesOf fmt notes term :=
  filterNotes_eq_filteredNotesOf fmt notes term

/-- C1: the client-side filter returns exactly the notes in which every
non-empty lowercased search fragment of the term occurs in the note's
lowercased text or in its lowercased locale date string, and returns the
full list unchanged when the term yields no non-empty fragments. -/
theorem filterNotes_exact (fmt : String → String)
    (notes : List Note) (term : String) :
    (searchTerms term = [] → filterNotes fmt notes term = notes) ∧
    filterNotes fmt notes term = notes.filter (fun n =>
      (searchTerms term).all (fun t =>
        includesL (lowerData n.note) t || includesL (lowerData (fmt n.createdAt)) t)) ∧
    (∀ n, n ∈ filterNotes fmt notes term ↔
      n ∈ notes ∧ ∀ t ∈ searchTerms term,
        includesL (lowerData n.note) t = true ∨
        includesL (lowerData (fmt n.createdAt)) t = true) ∧
    filteredNotesOf fmt notes term = notes.filter (fun n =>
      (searchTerms term).all (fun t =>
        includesL (lowerData n.note) t || includesL (lowerData (fmt n.createdAt)) t)) := by
  have key : filterNotes fmt notes term = notes.filter (fun n =>
      (searchTerms term).all (fun t =>
        includesL (lowerData n.note) t || includesL (lowerData (fmt n.createdAt)) t)) := by
    unfold filterNotes
    by_cases h0 : term = ""
    · subst h0
      have he : searchTerms "" = [] := rfl
      simp [he]
    · rw [if_neg h0]
  refine ⟨?_, key, ?_, ?_⟩
  · intro hst
    rw [key]
    simp [hst]
  · intro n
    rw [key, List.mem_filter]
    simp only [List.all_eq_true, Bool.or_eq_true]
  · rw [← filterNotes_eq_filteredNotesOf]
    exact key

/-- Witness for C1: a whitespace-only term yields no search fragments and the
filter returns the list unchanged. -/
theorem filterNotes_exact_witness :
    filterNotes (fun d => d) [⟨1, "Alpha", "bob", "jan 1"⟩] " "
      = [⟨1, "Alpha", "bob", "jan 1"⟩] :=
  (filterNotes_exact (fun d => d) [⟨1, "Alpha", "bob", "jan 1"⟩] " ").1 (by decide)

/-! ## Stream-based client state machine

The observable state of the stream-based NoteDataClient: the values held by
its BehaviorSubjects, the liveness of its three subscribed effect pipelines
(a pipeline dies when its subscriber receives an error), the in-flight
remote call of each pipeline (switchMap keeps at most one), and the armed
JS timeouts with their handles and delays. -/

/-- An armed JS timeout: its handle and its delay in milliseconds. -/
structure Timer where
  handle : Nat
  delay : Nat
deriving DecidableEq

/-- The fixed stale-data delay, 4000 ms in both clients. -/
def refreshDelayMs : Nat := 4000

structure RxState where
  notes : List Note
  loading : Bool
  error : Option String
  username : String
  filterTerm : String
  showRefresh : Bool
  activeTimers : List Timer
  refreshTimer : Option Nat
  nextTimerHandle : Nat
  aliveLoad : Bool
  aliveAdd : Bool
  aliveRemove : Bool
  pendingLoad : Option String
  pendingAdd : Option (String × String)
  pendingRemove : Option Int
deriving DecidableEq

/-- Events driving the stream-based client: its public operations, the
completion or failure of each kind of in-flight remote call, the firing of
an armed timeout, and component teardown. -/
inductive RxEv where
  | setUsername (u : String)
  | loadNotes
  | addNote (txt : String)
  | deleteNote (i : Int)
  | setFilterTerm (t : String)
  | loadSuccess (ns : List Note)
  | loadError (msg : String)
  | addSuccess
  | addError (msg : String)
  | removeSuccess
  | removeError (msg : String)
  | timerFire (h : Nat)
  | destroy

/-- The private setLoading helper: update the loading subject and clear the
error subject when turning loading on. -/
def rxSetLoading (b : Bool) (s : RxState) : RxState :=
  { s with loading := b, error := if b then none else s.error }

/-- JS clearTimeout on an optional handle: disarm that timeout if armed. -/
def clearTimeoutOpt (h : Option Nat) (ts : List Timer) : List Timer :=
  match h with
  | none => ts
  | some h => ts.filter (fun t => !(t.handle == h))

/-- An emission of the load subject: while the load pipeline is subscribed,
tap turns loading on (clearing the error) and switchMap replaces any
in-flight list query by a fresh one for the current username. -/
def rxIssueLoad (s : RxState) : RxState :=
  if s.aliveLoad then
    { rxSetLoading true s with pendingLoad := some s.username }
  else s

/-- The private resetRefreshTimer: clear the previous timeout, hide the
refresh prompt, and arm a fresh 4000 ms timeout. -/
def rxResetRefreshTimer (s : RxState) : RxState :=
  { s with
    showRefresh := false
    activeTimers := Timer.mk s.nextTimerHandle refreshDelayMs ::
      clearTimeoutOpt s.refreshTimer s.activeTimers
    refreshTimer := some s.nextTimerHandle
    nextTimerHandle := s.nextTimerHandle + 1 }

/-- One step of the stream-based client. -/
def rxStep (s : RxState) (e : RxEv) : RxState :=
  match e with
  | .setUsername u => rxIssueLoad { s with username := u }
  | .loadNotes => rxIssueLoad s
  | .addNote txt =>
    if s.aliveAdd then
      { rxSetLoading true s with pendingAdd := some (txt, s.username) }
    else s
  | .deleteNote i =>
    if s.aliveRemove then
      { rxSetLoading true s with pendingRemove := some i }
    else s
  | .setFilterTerm t => { s with filterTerm := t }
  | .loadSuccess ns =>
    if s.aliveLoad && s.pendingLoad.isSome then
      rxResetRefreshTimer (rxSetLoading false { s with notes := ns, pendingLoad := none })
    else s
  | .loadError msg =>
    if s.aliveLoad && s.pendingLoad.isSome then
      { rxSetLoading false s with error := some msg, pendingLoad := none, aliveLoad := false }
    else s
  | .addSuccess =>
    if s.aliveAdd && s.pendingAdd.isSome then
      rxSetLoading false (rxIssueLoad { s with pendingAdd := none })
    else s
  | .addError msg =>
    if s.aliveAdd && s.pendingAdd.isSome then
      { rxSetLoading false s with error := some msg, pendingAdd := none, aliveAdd := false }
    else s
  | .removeSuccess =>
    if s.aliveRemove && s.pendingRemove.isSome then
      rxSetLoading false (rxIssueLoad { s with pendingRemove := none })
    else s
  | .removeError msg =>
    if s.aliveRemove && s.pendingRemove.isSome then
      { rxSetLoading false s with error := some msg, pendingRemove := none, aliveRemove := false }
    else s
  | .timerFire h =>
    if s.activeTimers.any (fun t => t.handle == h) then
      { s with showRefresh := true,
               activeTimers := s.activeTimers.filter (fun t => !(t.handle == h)) }
    else s
  | .destroy =>
    { s with
      activeTimers := clearTimeoutOpt s.refreshTimer s.activeTimers
      aliveLoad := false, aliveAdd := false, aliveRemove := false
      pendingLoad := none, pendingAdd := none, pendingRemove := none }

/-- The state right after construction: default subject values, all three
pipelines subscribed, and the initial load triggered by the replayed
username value. -/
def rxInit : RxState :=
  rxIssueLoad
    { notes := [], loading := false, error := none, username := "",
      filterTerm := "", showRefresh := false, activeTimers := [],
      refreshTimer := none, nextTimerHandle := 1,
      aliveLoad := true, aliveAdd := true, aliveRemove := true,
      pendingLoad := none, pendingAdd := none, pendingRemove := none }

/-- States reachable from construction of the stream-based client. -/
inductive RxReach : RxState → Prop where
  | init : RxReach rxInit
  | step : ∀ {s : RxState} (e : RxEv), RxReach s → RxReach (rxStep s e)

/-! ## Signal-based client state machine

The observable state of the signal-based NoteDataClient: the notes
rxResource (its value, error and in-flight flag), the writable signals, the
liveness and in-flight call of the two subscribed mutation pipelines, and
the armed JS timeouts.  The code keeps the timer handle in a field with the
sentinel 0 for none. -/

structure SigState where
  resValue : Option (List Note)
  resError : Option String
  resLoading : Bool
  username : String
  filterText : String
  loadingCreate : Bool
  loadingDelete : Bool
  errorCreate : Option String
  errorDelete : Option String
  showRefreshFlag : Bool
  activeTimers : List Timer
  timerId : Nat
  nextTimerHandle : Nat
  aliveAdd : Bool
  aliveRemove : Bool
  pendingAdd : Option (String × String)
  pendingRemove : Option Int
deriving DecidableEq

/-- Events driving the signal-based client: its public operations, the
resolution or failure of the notes resource loader, the completion or
failure of each mutation, the firing of an armed timeout, and teardown. -/
inductive SigEv where
  | setUsername (u : String)
  | loadNotes
  | addNote (txt : String)
  | deleteNote (i : Int)
  | setFilterTerm (t : String)
  | loadResolve (ns : List Note)
  | loadFail (msg : String)
  | addSuccess
  | addError (msg : String)
  | removeSuccess
  | removeError (msg : String)
  | timerFire (h : Nat)
  | destroy

/-- The showRefresh linkedSignal computation, re-run at every resource
status change: clear the armed timeout when the sentinel is positive, arm a
fresh 4000 ms timeout when the new status is Resolved, and reset the prompt
to false. -/
def sigRefreshComputation (resolved : Bool) (s : SigState) : SigState :=
  let cleared :=
    if s.timerId > 0 then
      { s with activeTimers := s.activeTimers.filter (fun t => !(t.handle == s.timerId)) }
    else s
  if resolved then
    { cleared with
      showRefreshFlag := false
      activeTimers := Timer.mk cleared.nextTimerHandle refreshDelayMs :: cleared.activeTimers
      timerId := cleared.nextTimerHandle
      nextTimerHandle := cleared.nextTimerHandle + 1 }
  else { cleared with showRefreshFlag := false }

/-- A new run of the resource loader: in flight, error cleared; a request
change (new username) drops the previous value while an explicit reload
keeps it. -/
def sigStartLoad (keepValue : Bool) (s : SigState) : SigState :=
  sigRefreshComputation false
    { s with resLoading := true, resError := none,
             resValue := if keepValue then s.resValue else none }

/-- One step of the signal-based client. -/
def sigStep (s : SigState) (e : SigEv) : SigState :=
  match e with
  | .setUsername u => sigStartLoad false { s with username := u }
  | .loadNotes => sigStartLoad true s
  | .addNote txt =>
    if s.aliveAdd then
      { s with loadingCreate := true, errorCreate := none,
               pendingAdd := some (txt, s.username) }
    else s
  | .deleteNote i =>
    if s.aliveRemove then
      { s with loadingDelete := true, errorDelete := none, pendingRemove := some i }
    else s
  | .setFilterTerm t => { s with filterText := t }
  | .loadResolve ns =>
    if s.resLoading then
      sigRefreshComputation true
        { s with resValue := some ns, resError := none, resLoading := false }
    else s
  | .loadFail msg =>
    if s.resLoading then
      sigRefreshComputation false
        { s with resValue := none, resError := some msg, resLoading := false }
    else s
  | .addSuccess =>
    if s.aliveAdd && s.pendingAdd.isSome then
      { sigStartLoad true { s with pendingAdd := none } with loadingCreate := false }
    else s
  | .addError msg =>
    if s.aliveAdd && s.pendingAdd.isSome then
      { s with errorCreate := some msg, pendingAdd := none, aliveAdd := false }
    else s
  | .removeSuccess =>
    if s.aliveRemove && s.pendingRemove.isSome then
      { sigStartLoad true { s with pendingRemove := none } with loadingDelete := false }
    else s
  | .removeError msg =>
    if s.aliveRemove && s.pendingRemove.isSome then
      { s with errorDelete := some msg, pendingRemove := none, aliveRemove := false }
    else s
  | .timerFire h =>
    if s.activeTimers.any (fun t => t.handle == h) then
      { s with showRefreshFlag := true,
               activeTimers := s.activeTimers.filter (fun t => !(t.handle == h)),
               timerId := if s.timerId == h then 0 else s.timerId }
    else s
  | .destroy =>
    { s with aliveAdd := false, aliveRemove := false,
             pendingAdd := none, pendingRemove := none, resLoading := false }

/-- The state right after construction: the resource loader already running
for the initial empty username, both mutation pipelines subscribed, the
linkedSignal initialised to false, no armed timeout. -/
def sigInit : SigState :=
  { resValue := none, resError := none, resLoading := true,
    username := "", filterText := "",
    loadingCreate := false, loadingDelete := false,
    errorCreate := none, errorDelete := none,
    showRefreshFlag := false, activeTimers := [], timerId := 0,
    nextTimerHandle := 1, aliveAdd := true, aliveRemove := true,
    pendingAdd := none, pendingRemove := none }

/-- States reachable from construction of the signal-based client. -/
inductive SigReach : SigState → Prop where
  | init : SigReach sigInit
  | step : ∀ {s : SigState} (e : SigEv), SigReach s → SigReach (sigStep s e)

/-- JS disjunction on nullable strings: null and the empty string are falsy. -/
def jsOrStr (a b : Option String) : Option String :=
  match a with
  | some x => if x = "" then b else some x
  | none => b

/-- The notes computed signal: the resource value, defaulting to the empty
list. -/
def sigNotes (s : SigState) : List Note := s.resValue.getD []

/-- The totalNotesCount computed signal. -/
def sigTotalNotesCount (s : SigState) : Nat := (sigNotes s).length

/-- The loading computed signal. -/
def sigLoading (s : SigState) : Bool :=
  s.resLoading || s.loadingDelete || s.loadingCreate

/-- The error computed signal: a resource error renders as the fixed text,
otherwise the create then the delete error text, JS-falsy values skipped. -/
def sigError (s : SigState) : Option String :=
  jsOrStr (if s.resError.isSome then some "Fetch of notes failed" else none)
    (jsOrStr s.errorCreate s.errorDelete)

/-- The filteredNotes computed signal. -/
def sigFilteredNotes (fmt : String → String) (s : SigState) : List Note :=
  filteredNotesOf fmt (sigNotes s) s.filterText

/-! ## Projection helpers for the refresh computation -/

@[simp] theorem sigRC_resValue (b : Bool) (s : SigState) :
    (sigRefreshComputation b s).resValue = s.resValue := by
  cases b <;> by_cases h : s.timerId > 0 <;> simp [sigRefreshComputation, h]

@[simp] theorem sigRC_resError (b : Bool) (s : SigState) :
    (sigRefreshComputation b s).resError = s.resError := by
  cases b <;> by_cases h : s.timerId > 0 <;> simp [sigRefreshComputation, h]

@[simp] theorem sigRC_resLoading (b : Bool) (s : SigState) :
    (sigRefreshComputation b s).resLoading = s.resLoading := by
  cases b <;> by_cases h : s.timerId > 0 <;> simp [sigRefreshComputation, h]

@[simp] theorem sigRC_username (b : Bool) (s : SigState) :
    (sigRefreshComputation b s).username = s.username := by
  cases b <;> by_cases h : s.timerId > 0 <;> simp [sigRefreshComputation, h]

@[simp] theorem sigRC_filterText (b : Bool) (s : SigState) :
    (sigRefreshComputation b s).filterText = s.filterText := by
  cases b <;> by_cases h : s.timerId > 0 <;> simp [sigRefreshComputation, h]

@[simp] theorem sigRC_loadingCreate (b : Bool) (s : SigState) :
    (sigRefreshComputation b s).loadingCreate = s.loadingCreate := by
  cases b <;> by_cases h : s.timerId > 0 <;> simp [sigRefreshComputation, h]

@[simp] theorem sigRC_loadingDelete (b : Bool) (s : SigState) :
    (sigRefreshComputation b s).loadingDelete = s.loadingDelete := by
  cases b <;> by_cases h : s.timerId > 0 <;> simp [sigRefreshComputation, h]

@[simp] theorem sigRC_errorCreate (b : Bool) (s : SigState) :
    (sigRefreshComputation b s).errorCreate = s.errorCreate := by
  cases b <;> by_cases h : s.timerId > 0 <;> simp [sigRefreshComputation, h]

@[simp] theorem sigRC_errorDelete (b : Bool) (s : SigState) :
    (sigRefreshComputation b s).errorDelete = s.errorDelete := by
  cases b <;> by_cases h : s.timerId > 0 <;> simp [sigRefreshComputation, h]

@[simp] theorem sigRC_aliveAdd (b : Bool) (s : SigState) :
    (sigRefreshComputation b s).aliveAdd = s.aliveAdd := by
  cases b <;> by_cases h : s.timerId > 0 <;> simp [sigRefreshComputation, h]

@[simp] theorem sigRC_aliveRemove (b : Bool) (s : SigState) :
    (sigRefreshComputation b s).aliveRemove = s.aliveRemove := by
  cases b <;> by_cases h : s.timerId > 0 <;> simp [sigRefreshComputation, h]

@[simp] theorem sigRC_pendingAdd (b : Bool) (s : SigState) :
    (sigRefreshComputation b s).pendingAdd = s.pendingAdd := by
  cases b <;> by_cases h : s.timerId > 0 <;> simp [sigRefreshComputation, h]

@[simp] theorem sigRC_pendingRemove (b : Bool) (s : SigState) :
    (sigRefreshComputation b s).pendingRemove = s.pendingRemove := by
  cases b <;> by_cases h : s.timerId > 0 <;> simp [sigRefreshComputation, h]

@[simp] theorem sigRC_showRefreshFlag (b : Bool) (s : SigState) :
    (sigRefreshComputation b s).showRefreshFlag = false := by
  cases b <;> by_cases h : s.timerId > 0 <;> simp [sigRefreshComputation, h]

/-- C10: in the signal-based client the notes signal is never null or
undefined: it is the empty list whenever the resource has no value (at
construction and after a fetch failure), and totalNotesCount always equals
the length of notes. -/
theorem sigNotes_total_invariant (s : SigState) (m : String) :
    (s.resValue = none → sigNotes s = []) ∧
    sigTotalNotesCount s = (sigNotes s).length ∧
    sigNotes sigInit = [] ∧
    (s.resLoading = true → sigNotes (sigStep s (SigEv.loadFail m)) = []) := by
  refine ⟨?_, rfl, rfl, ?_⟩
  · intro h
    simp [sigNotes, h]
  · intro h
    simp [sigStep, h, sigNotes]

/-- Witness for C10 at the constructed state and a concrete failure. -/
theorem sigNotes_total_invariant_witness :
    sigNotes sigInit = [] ∧ sigNotes (sigStep sigInit (SigEv.loadFail "down")) = [] :=
  ⟨(sigNotes_total_invariant sigInit "down").1 rfl,
    (sigNotes_total_invariant sigInit "down").2.2.2 rfl⟩

/-- C9: in the signal-based client a failed create or delete mutation sets
the error text without resetting its loading flag; since the failed
pipeline's subscription is dead the flag can never be reset again, so the
derived loading signal remains true from that point on. -/
theorem sig_mutation_error_loading_stuck (s s2 : SigState) (m : String) (e : SigEv) :
    (s.aliveAdd = true → s.pendingAdd.isSome = true → s.loadingCreate = true →
      (sigStep s (SigEv.addError m)).errorCreate = some m ∧
      (sigStep s (SigEv.addError m)).loadingCreate = true ∧
      (sigStep s (SigEv.addError m)).aliveAdd = false ∧
      sigLoading (sigStep s (SigEv.addError m)) = true) ∧
    (s.aliveRemove = true → s.pendingRemove.isSome = true → s.loadingDelete = true →
      (sigStep s (SigEv.removeError m)).errorDelete = some m ∧
      (sigStep s (SigEv.removeError m)).loadingDelete = true ∧
      (sigStep s (SigEv.removeError m)).aliveRemove = false ∧
      sigLoading (sigStep s (SigEv.removeError m)) = true) ∧
    (s2.loadingCreate = true → s2.aliveAdd = false →
      (sigStep s2 e).loadingCreate = true ∧ (sigStep s2 e).aliveAdd = false ∧
      sigLoading (sigStep s2 e) = true) ∧
    (s2.loadingDelete = true → s2.aliveRemove = false →
      (sigStep s2 e).loadingDelete = true ∧ (sigStep s2 e).aliveRemove = false ∧
      sigLoading (sigStep s2 e) = true) := by
  refine ⟨?_, ?_, ?_, ?_⟩
  · intro h1 h2 h3
    simp [sigStep, h1, h2, h3, sigLoading]
  · intro h1 h2 h3
    simp [sigStep, h1, h2, h3, sigLoading]
  · intro h1 h2
    cases e <;>
      simp [sigStep, sigStartLoad, sigLoading, h1, h2] <;>
      split <;> simp [sigStartLoad, sigLoading, h1, h2]
  · intro h1 h2
    cases e <;>
      simp [sigStep, sigStartLoad, sigLoading, h1, h2] <;>
      split <;> simp [sigStartLoad, sigLoading, h1, h2]

/-- Witness for C9 at a concrete mutation failure after a concrete create. -/
theorem sig_mutation_error_loading_stuck_witness :
    sigLoading (sigStep (sigStep sigInit (SigEv.addNote "hi")) (SigEv.addError "nope"))
      = true :=
  ((sig_mutation_error_loading_stuck (sigStep sigInit (SigEv.addNote "hi"))
      sigInit "nope" SigEv.destroy).1 (by decide) (by decide) (by decide)).2.2.2

/-- C8: a remote-call error inside a subscribed effect pipeline terminates
that pipeline's subscription for good: afterwards the corresponding
operation is a no-op (no new request, no state change) for the rest of the
instance's life.  The stream client subscribes load, add-note and
remove-note pipelines; the signal client subscribes add-note and
remove-note, its load going through the resource instead. -/
theorem pipeline_error_terminates (sr : RxState) (ss : SigState)
    (m txt : String) (i : Int) (er : RxEv) (es : SigEv) :
    (sr.aliveLoad = true → sr.pendingLoad.isSome = true →
      (rxStep sr (RxEv.loadError m)).aliveLoad = false) ∧
    (sr.aliveAdd = true → sr.pendingAdd.isSome = true →
      (rxStep sr (RxEv.addError m)).aliveAdd = false) ∧
    (sr.aliveRemove = true → sr.pendingRemove.isSome = true →
      (rxStep sr (RxEv.removeError m)).aliveRemove = false) ∧
    (sr.aliveLoad = false → rxStep sr RxEv.loadNotes = sr) ∧
    (sr.aliveAdd = false → rxStep sr (RxEv.addNote txt) = sr) ∧
    (sr.aliveRemove = false → rxStep sr (RxEv.deleteNote i) = sr) ∧
    (sr.aliveLoad = false → (rxStep sr er).aliveLoad = false) ∧
    (sr.aliveAdd = false → (rxStep sr er).aliveAdd = false) ∧
    (sr.aliveRemove = false → (rxStep sr er).aliveRemove = false) ∧
    (ss.aliveAdd = true → ss.pendingAdd.isSome = true →
      (sigStep ss (SigEv.addError m)).aliveAdd = false) ∧
    (ss.aliveRemove = true → ss.pendingRemove.isSome = true →
      (sigStep ss (SigEv.removeError m)).aliveRemove = false) ∧
    (ss.aliveAdd = false → sigStep ss (SigEv.addNote txt) = ss) ∧
    (ss.aliveRemove = false → sigStep ss (SigEv.deleteNote i) = ss) ∧
    (ss.aliveAdd = false → (sigStep ss es).aliveAdd = false) ∧
    (ss.aliveRemove = false → (sigStep ss es).aliveRemove = false) := by
  refine ⟨?_, ?_, ?_, ?_, ?_, ?_, ?_, ?_, ?_, ?_, ?_, ?_, ?_, ?_, ?_⟩
  · intro h1 h2; simp [rxStep, h1, h2]
  · intro h1 h2; simp [rxStep, h1, h2]
  · intro h1 h2; simp [rxStep, h1, h2]
  · intro h1; simp [rxStep, rxIssueLoad, h1]
  · intro h1; simp [rxStep, h1]
  · intro h1; simp [rxStep, h1]
  · intro h1
    cases er <;>
      simp [rxStep, rxIssueLoad, rxSetLoading, rxResetRefreshTimer, h1] <;>
      (try split) <;> simp [rxIssueLoad, rxSetLoading, rxResetRefreshTimer, h1] <;>
      (try split) <;> simp [rxIssueLoad, rxSetLoading, rxResetRefreshTimer, h1]
  · intro h1
    cases er <;>
      simp [rxStep, rxIssueLoad, rxSetLoading, rxResetRefreshTimer, h1] <;>
      (try split) <;> simp [rxIssueLoad, rxSetLoading, rxResetRefreshTimer, h1] <;>
      (try split) <;> simp [rxIssueLoad, rxSetLoading, rxResetRefreshTimer, h1]
  · intro h1
    cases er <;>
      simp [rxStep, rxIssueLoad, rxSetLoading, rxResetRefreshTimer, h1] <;>
      (try split) <;> simp [rxIssueLoad, rxSetLoading, rxResetRefreshTimer, h1] <;>
      (try split) <;> simp [rxIssueLoad, rxSetLoading, rxResetRefreshTimer, h1]
  · intro h1 h2; simp [sigStep, h1, h2]
  · intro h1 h2; simp [sigStep, h1, h2]
  · intro h1; simp [sigStep, h1]
  · intro h1; simp [sigStep, h1]
  · intro h1
    cases es <;>
      simp [sigStep, sigStartLoad, h1] <;>
      split <;> simp [sigStartLoad, h1]
  · intro h1
    cases es <;>
      simp [sigStep, sigStartLoad, h1] <;>
      split <;> simp [sigStartLoad, h1]

/-- Witness for C8 at concrete failing traces in both clients. -/
theorem pipeline_error_terminates_witness :
    rxStep (rxStep rxInit (RxEv.loadError "down")) RxEv.loadNotes
        = rxStep rxInit (RxEv.loadError "down") ∧
    sigStep (sigStep (sigStep sigInit (SigEv.addNote "hi")) (SigEv.addError "nope"))
        (SigEv.addNote "again")
      = sigStep (sigStep sigInit (SigEv.addNote "hi")) (SigEv.addError "nope") :=
  ⟨(pipeline_error_terminates (rxStep rxInit (RxEv.loadError "down")) sigInit
      "m" "t" 0 RxEv.destroy SigEv.destroy).2.2.2.1 (by decide),
    (pipeline_error_terminates rxInit
      (sigStep (sigStep sigInit (SigEv.addNote "hi")) (SigEv.addError "nope"))
      "m" "again" 0 RxEv.destroy SigEv.destroy).2.2.2.2.2.2.2.2.2.2.2.1 (by decide)⟩

/-- C5 counterexample: in the stream-based client, once the load pipeline
has been killed by a list-fetch error, a subsequently successful create
(here with "hi" in flight) triggers no reload: the success handler's load
trigger reaches a dead subscription and no list request is issued. -/
theorem rx_dead_load_no_reload :
    (rxStep (rxStep rxInit (RxEv.loadError "down")) (RxEv.addNote "hi")).pendingAdd
      = some ("hi", "") ∧
    (rxStep (rxStep (rxStep rxInit (RxEv.loadError "down")) (RxEv.addNote "hi"))
        RxEv.addSuccess).pendingLoad = none := by
  refine ⟨by decide, by decide⟩

/-- C5 amended: a successfully completed create or delete mutation always
reloads the notes list in the signal-based client (resource reload); the
stream-based client reloads through its load pipeline provided that
pipeline has not been terminated by an earlier list-fetch error, and issues
no list request when it has; the server list selected after a create
contains the created note. -/
theorem mutation_success_triggers_reload (sr : RxState) (ss : SigState)
    (db : List DbRow) (nid : Int) (txt p now : String) :
    (sr.aliveAdd = true → sr.pendingAdd.isSome = true → sr.aliveLoad = true →
      (rxStep sr RxEv.addSuccess).pendingLoad = some sr.username) ∧
    (sr.aliveRemove = true → sr.pendingRemove.isSome = true → sr.aliveLoad = true →
      (rxStep sr RxEv.removeSuccess).pendingLoad = some sr.username) ∧
    (ss.aliveAdd = true → ss.pendingAdd.isSome = true →
      (sigStep ss SigEv.addSuccess).resLoading = true) ∧
    (ss.aliveRemove = true → ss.pendingRemove.isSome = true →
      (sigStep ss SigEv.removeSuccess).resLoading = true) ∧
    (sr.aliveLoad = false →
      (rxStep sr RxEv.addSuccess).pendingLoad = sr.pendingLoad ∧
      (rxStep sr RxEv.removeSuccess).pendingLoad = sr.pendingLoad) ∧
    rowToNote ⟨nid, txt, p, now⟩ ∈
      noteRouterList (noteRouterCreate db nid txt p now).1 p := by
  refine ⟨?_, ?_, ?_, ?_, ?_, ?_⟩
  · intro h1 h2 h3
    simp [rxStep, h1, h2, h3, rxIssueLoad, rxSetLoading]
  · intro h1 h2 h3
    simp [rxStep, h1, h2, h3, rxIssueLoad, rxSetLoading]
  · intro h1 h2
    simp [sigStep, h1, h2, sigStartLoad]
  · intro h1 h2
    simp [sigStep, h1, h2, sigStartLoad]
  · intro h3
    refine ⟨?_, ?_⟩
    · simp only [rxStep]
      split <;> simp [rxIssueLoad, rxSetLoading, h3]
    · simp only [rxStep]
      split <;> simp [rxIssueLoad, rxSetLoading, h3]
  · simp only [noteRouterList, noteRouterCreate, List.mem_map]
    refine ⟨⟨nid, txt, p, now⟩, List.mem_filter.mpr ⟨?_, ?_⟩, rfl⟩
    · exact List.mem_append_right db (List.mem_singleton.mpr rfl)
    · exact beq_self_eq_true p

/-- Witness for the amended C5: a concrete create in each client, the
no-reload case after a dead load pipeline, and the server list. -/
theorem mutation_success_triggers_reload_witness :
    (rxStep (rxStep rxInit (RxEv.addNote "hi")) RxEv.addSuccess).pendingLoad
        = some "" ∧
    (sigStep (sigStep sigInit (SigEv.addNote "hi")) SigEv.addSuccess).resLoading
        = true ∧
    (rxStep (rxStep (rxStep rxInit (RxEv.loadError "down")) (RxEv.addNote "hi"))
        RxEv.addSuccess).pendingLoad
      = (rxStep (rxStep rxInit (RxEv.loadError "down")) (RxEv.addNote "hi")).pendingLoad ∧
    rowToNote ⟨1, "hi", "bob", "d0"⟩ ∈
      noteRouterList (noteRouterCreate [] 1 "hi" "bob" "d0").1 "bob" :=
  ⟨(mutation_success_triggers_reload (rxStep rxInit (RxEv.addNote "hi")) sigInit
      [] 1 "hi" "bob" "d0").1 (by decide) (by decide) (by decide),
    (mutation_success_triggers_reload rxInit (sigStep sigInit (SigEv.addNote "hi"))
      [] 1 "hi" "bob" "d0").2.2.1 (by decide) (by decide),
    ((mutation_success_triggers_reload
      (rxStep (rxStep rxInit (RxEv.loadError "down")) (RxEv.addNote "hi")) sigInit
      [] 1 "hi" "bob" "d0").2.2.2.2.1 (by decide)).1,
    (mutation_success_triggers_reload rxInit sigInit [] 1 "hi" "bob" "d0").2.2.2.2.2⟩

/-- C3 counterexample: the claim's message rules fail on concrete traces.
In the stream-based client a failed list fetch surfaces the underlying
error text, not the fixed text; in the signal-based client a failed delete
that follows a failed create surfaces the earlier create text, not the
delete's underlying error text. -/
theorem error_text_counterexample :
    ((rxStep rxInit (RxEv.loadError "boom")).error = some "boom" ∧
      (some "boom" : Option String) ≠ some "Fetch of notes failed") ∧
    (sigError (sigStep (sigStep (sigStep (sigStep sigInit (SigEv.addNote "a"))
          (SigEv.addError "x")) (SigEv.deleteNote 5)) (SigEv.removeError "y"))
        = some "x" ∧
      (some "x" : Option String) ≠ some "y") := by
  refine ⟨⟨by decide, by decide⟩, by decide, by decide⟩

/-- C3 amended: every failed remote call is recorded as a message and no
retry is issued.  The stream-based client exposes the underlying error text
of the failed call for list, create and delete alike.  The signal-based
client exposes the fixed text whenever the notes resource holds an error,
and otherwise the recorded create error text or-else the recorded delete
error text under JS truthiness, so a failed delete's text is masked by a
displayed fetch error or a JS-truthy create error standing before it. -/
theorem remote_failure_surfaced (sr : RxState) (ss : SigState) (m : String) :
    (sr.aliveLoad = true → sr.pendingLoad.isSome = true →
      (rxStep sr (RxEv.loadError m)).error = some m ∧
      (rxStep sr (RxEv.loadError m)).pendingLoad = none ∧
      (rxStep sr (RxEv.loadError m)).pendingAdd = sr.pendingAdd ∧
      (rxStep sr (RxEv.loadError m)).pendingRemove = sr.pendingRemove) ∧
    (sr.aliveAdd = true → sr.pendingAdd.isSome = true →
      (rxStep sr (RxEv.addError m)).error = some m ∧
      (rxStep sr (RxEv.addError m)).pendingAdd = none ∧
      (rxStep sr (RxEv.addError m)).pendingLoad = sr.pendingLoad ∧
      (rxStep sr (RxEv.addError m)).pendingRemove = sr.pendingRemove) ∧
    (sr.aliveRemove = true → sr.pendingRemove.isSome = true →
      (rxStep sr (RxEv.removeError m)).error = some m ∧
      (rxStep sr (RxEv.removeError m)).pendingRemove = none ∧
      (rxStep sr (RxEv.removeError m)).pendingLoad = sr.pendingLoad ∧
      (rxStep sr (RxEv.removeError m)).pendingAdd = sr.pendingAdd) ∧
    (ss.resLoading = true →
      sigError (sigStep ss (SigEv.loadFail m)) = some "Fetch of notes failed" ∧
      (sigStep ss (SigEv.loadFail m)).resLoading = false ∧
      (sigStep ss (SigEv.loadFail m)).pendingAdd = ss.pendingAdd ∧
      (sigStep ss (SigEv.loadFail m)).pendingRemove = ss.pendingRemove) ∧
    (ss.aliveAdd = true → ss.pendingAdd.isSome = true →
      (sigStep ss (SigEv.addError m)).errorCreate = some m ∧
      (ss.resError = none →
        sigError (sigStep ss (SigEv.addError m)) = jsOrStr (some m) ss.errorDelete) ∧
      (ss.resError.isSome = true →
        sigError (sigStep ss (SigEv.addError m)) = some "Fetch of notes failed") ∧
      (sigStep ss (SigEv.addError m)).pendingAdd = none ∧
      (sigStep ss (SigEv.addError m)).resLoading = ss.resLoading ∧
      (sigStep ss (SigEv.addError m)).pendingRemove = ss.pendingRemove) ∧
    (ss.aliveRemove = true → ss.pendingRemove.isSome = true →
      (sigStep ss (SigEv.removeError m)).errorDelete = some m ∧
      (ss.resError = none →
        sigError (sigStep ss (SigEv.removeError m)) = jsOrStr ss.errorCreate (some m)) ∧
      (ss.resError.isSome = true →
        sigError (sigStep ss (SigEv.removeError m)) = some "Fetch of notes failed") ∧
      (sigStep ss (SigEv.removeError m)).pendingRemove = none ∧
      (sigStep ss (SigEv.removeError m)).resLoading = ss.resLoading ∧
      (sigStep ss (SigEv.removeError m)).pendingAdd = ss.pendingAdd) := by
  refine ⟨?_, ?_, ?_, ?_, ?_, ?_⟩
  · intro h1 h2
    simp [rxStep, h1, h2, rxSetLoading]
  · intro h1 h2
    simp [rxStep, h1, h2, rxSetLoading]
  · intro h1 h2
    simp [rxStep, h1, h2, rxSetLoading]
  · intro h1
    refine ⟨?_, by simp [sigStep, h1], by simp [sigStep, h1], by simp [sigStep, h1]⟩
    simp [sigStep, h1, sigError, jsOrStr]
  · intro h1 h2
    refine ⟨by simp [sigStep, h1, h2], ?_, ?_, by simp [sigStep, h1, h2],
      by simp [sigStep, h1, h2], by simp [sigStep, h1, h2]⟩
    · intro h3
      simp [sigStep, h1, h2, sigError, jsOrStr, h3]
    · intro h3
      simp [sigStep, h1, h2, sigError, jsOrStr, h3]
  · intro h1 h2
    refine ⟨by simp [sigStep, h1, h2], ?_, ?_, by simp [sigStep, h1, h2],
      by simp [sigStep, h1, h2], by simp [sigStep, h1, h2]⟩
    · intro h3
      simp [sigStep, h1, h2, sigError, jsOrStr, h3]
    · intro h3
      simp [sigStep, h1, h2, sigError, jsOrStr, h3]

/-- Witness for the amended C3 at concrete failures: an underlying create
error text in the stream client, the fixed text for a failed fetch, and the
JS-disjunct result for a failed create in the signal client. -/
theorem remote_failure_surfaced_witness :
    (rxStep (rxStep rxInit (RxEv.addNote "hi")) (RxEv.addError "denied")).error
      = some "denied" ∧
    sigError (sigStep sigInit (SigEv.loadFail "down")) = some "Fetch of notes failed" ∧
    sigError (sigStep (sigStep sigInit (SigEv.addNote "hi")) (SigEv.addError "nope"))
      = jsOrStr (some "nope") none := by
  refine ⟨?_, ?_, ?_⟩
  · exact ((remote_failure_surfaced (rxStep rxInit (RxEv.addNote "hi")) sigInit
      "denied").2.1 (by decide) (by decide)).1
  · exact ((remote_failure_surfaced rxInit sigInit "down").2.2.2.1 (by decide)).1
  · exact (((remote_failure_surfaced rxInit (sigStep sigInit (SigEv.addNote "hi"))
      "nope").2.2.2.2.1 (by decide) (by decide)).2.1 (by decide))

/-! ## Timer bookkeeping invariants -/

/-- Timer bookkeeping invariant of the stream-based client: at most one
armed timeout, and every armed timeout is the recorded refresh timeout with
the fixed 4000 ms delay. -/
def RxTimerInv (s : RxState) : Prop :=
  s.activeTimers.length ≤ 1 ∧
  ∀ t ∈ s.activeTimers, s.refreshTimer = some t.handle ∧ t.delay = refreshDelayMs

theorem clearTimeoutOpt_of_inv {s : RxState} (h : RxTimerInv s) :
    clearTimeoutOpt s.refreshTimer s.activeTimers = [] := by
  rcases h with ⟨_, hall⟩
  cases hr : s.refreshTimer with
  | none =>
    cases ht : s.activeTimers with
    | nil => rfl
    | cons a l =>
      have := (hall a (ht ▸ List.mem_cons_self a l)).1
      rw [hr] at this
      cases this
  | some k =>
    unfold clearTimeoutOpt
    refine List.filter_eq_nil_iff.mpr ?_
    intro t ht
    have := (hall t ht).1
    rw [hr] at this
    have hk : t.handle = k := by
      injection this with h2
      exact h2.symm
    simp [hk]

theorem rxResetRefreshTimer_timers {s : RxState}
    (h : clearTimeoutOpt s.refreshTimer s.activeTimers = []) :
    (rxResetRefreshTimer s).activeTimers
      = [Timer.mk s.nextTimerHandle refreshDelayMs] ∧
    (rxResetRefreshTimer s).refreshTimer = some s.nextTimerHandle ∧
    (rxResetRefreshTimer s).showRefresh = false := by
  refine ⟨?_, rfl, rfl⟩
  show Timer.mk s.nextTimerHandle refreshDelayMs ::
    clearTimeoutOpt s.refreshTimer s.activeTimers = _
  rw [h]

theorem rxStep_timerInv {s : RxState} (h : RxTimerInv s) (e : RxEv) :
    RxTimerInv (rxStep s e) := by
  have hfields : ∀ s2 : RxState, s2.activeTimers = s.activeTimers →
      s2.refreshTimer = s.refreshTimer → RxTimerInv s2 := by
    intro s2 ha hr
    rw [RxTimerInv, ha, hr]
    exact h
  cases e with
  | setUsername u =>
    simp only [rxStep, rxIssueLoad]
    split
    · exact hfields _ rfl rfl
    · exact hfields _ rfl rfl
  | loadNotes =>
    simp only [rxStep, rxIssueLoad]
    split
    · exact hfields _ rfl rfl
    · exact h
  | addNote txt =>
    simp only [rxStep]
    split
    · exact hfields _ rfl rfl
    · exact h
  | deleteNote i =>
    simp only [rxStep]
    split
    · exact hfields _ rfl rfl
    · exact h
  | setFilterTerm t => exact hfields _ rfl rfl
  | loadSuccess ns =>
    simp only [rxStep]
    split
    case isFalse => exact h
    case isTrue =>
      have hclear : clearTimeoutOpt
          (rxSetLoading false { s with notes := ns, pendingLoad := none }).refreshTimer
          (rxSetLoading false { s with notes := ns, pendingLoad := none }).activeTimers
          = [] := clearTimeoutOpt_of_inv (hfields _ rfl rfl)
      rcases rxResetRefreshTimer_timers hclear with ⟨ha, hr, _⟩
      constructor
      · rw [ha]; exact Nat.le_refl 1
      · intro t ht
        rw [ha, List.mem_singleton] at ht
        subst ht
        exact ⟨hr, rfl⟩
  | loadError msg =>
    simp only [rxStep]
    split
    · exact hfields _ rfl rfl
    · exact h
  | addSuccess =>
    simp only [rxStep]
    split
    case isFalse => exact h
    case isTrue =>
      simp only [rxIssueLoad]
      split
      · exact hfields _ rfl rfl
      · exact hfields _ rfl rfl
  | addError msg =>
    simp only [rxStep]
    split
    · exact hfields _ rfl rfl
    · exact h
  | removeSuccess =>
    simp only [rxStep]
    split
    case isFalse => exact h
    case isTrue =>
      simp only [rxIssueLoad]
      split
      · exact hfields _ rfl rfl
      · exact hfields _ rfl rfl
  | removeError msg =>
    simp only [rxStep]
    split
    · exact hfields _ rfl rfl
    · exact h
  | timerFire k =>
    simp only [rxStep]
    split
    case isFalse => exact h
    case isTrue =>
      constructor
      · exact Nat.le_trans (List.length_filter_le _ _) h.1
      · intro t ht
        exact h.2 t (List.mem_filter.mp ht).1
  | destroy =>
    simp only [rxStep]
    constructor
    · show (clearTimeoutOpt s.refreshTimer s.activeTimers).length ≤ 1
      rw [clearTimeoutOpt_of_inv h]
      exact Nat.zero_le 1
    · intro t ht
      rw [clearTimeoutOpt_of_inv h] at ht
      cases ht

theorem rxReach_timerInv {s : RxState} (h : RxReach s) : RxTimerInv s := by
  induction h with
  | init =>
    constructor
    · decide
    · intro t ht
      cases ht
  | step e _ ih => exact rxStep_timerInv ih e

/-- Timer bookkeeping invariant of the signal-based client: at most one
armed timeout, fresh handles stay positive, and every armed timeout is the
recorded one with a positive handle and the fixed 4000 ms delay. -/
def SigTimerInv (s : SigState) : Prop :=
  s.activeTimers.length ≤ 1 ∧ 0 < s.nextTimerHandle ∧
  ∀ t ∈ s.activeTimers, t.handle = s.timerId ∧ 0 < t.handle ∧ t.delay = refreshDelayMs

theorem sigCleared_timers {s : SigState} (h : SigTimerInv s) :
    (if s.timerId > 0 then
      { s with activeTimers := s.activeTimers.filter (fun t => !(t.handle == s.timerId)) }
     else s).activeTimers = [] := by
  rcases h with ⟨_, _, hall⟩
  split
  case isTrue =>
    refine List.filter_eq_nil_iff.mpr ?_
    intro t ht
    simp [(hall t ht).1]
  case isFalse h0 =>
    cases ht : s.activeTimers with
    | nil => rfl
    | cons a l =>
      have := hall a (ht ▸ List.mem_cons_self a l)
      exact absurd (this.1 ▸ this.2.1) h0

theorem sigCleared_next (s : SigState) :
    (if s.timerId > 0 then
      { s with activeTimers := s.activeTimers.filter (fun t => !(t.handle == s.timerId)) }
     else s).nextTimerHandle = s.nextTimerHandle := by
  split <;> rfl

theorem sigCleared_timerId (s : SigState) :
    (if s.timerId > 0 then
      { s with activeTimers := s.activeTimers.filter (fun t => !(t.handle == s.timerId)) }
     else s).timerId = s.timerId := by
  split <;> rfl

theorem sigRC_timers_true {s : SigState} (h : SigTimerInv s) :
    (sigRefreshComputation true s).activeTimers
      = [Timer.mk s.nextTimerHandle refreshDelayMs] ∧
    (sigRefreshComputation true s).timerId = s.nextTimerHandle ∧
    (sigRefreshComputation true s).nextTimerHandle = s.nextTimerHandle + 1 := by
  refine ⟨?_, ?_, ?_⟩ <;>
    simp [sigRefreshComputation, sigCleared_timers h, sigCleared_next s]

theorem sigRC_timers_false {s : SigState} (h : SigTimerInv s) :
    (sigRefreshComputation false s).activeTimers = [] ∧
    (sigRefreshComputation false s).timerId = s.timerId ∧
    (sigRefreshComputation false s).nextTimerHandle = s.nextTimerHandle := by
  refine ⟨?_, ?_, ?_⟩ <;>
    simp [sigRefreshComputation, sigCleared_timers h, sigCleared_next s,
      sigCleared_timerId s]

theorem sigStep_timerInv {s : SigState} (h : SigTimerInv s) (e : SigEv) :
    SigTimerInv (sigStep s e) := by
  have hfields : ∀ s2 : SigState, s2.activeTimers = s.activeTimers →
      s2.timerId = s.timerId → s2.nextTimerHandle = s.nextTimerHandle →
      SigTimerInv s2 := by
    intro s2 ha ht hn
    rw [SigTimerInv, ha, ht, hn]
    exact h
  have hstart : ∀ (keep : Bool) (s2 : SigState), s2.activeTimers = s.activeTimers →
      s2.timerId = s.timerId → s2.nextTimerHandle = s.nextTimerHandle →
      SigTimerInv (sigStartLoad keep s2) := by
    intro keep s2 ha ht hn
    have h2 : SigTimerInv
        { s2 with
          resLoading := true
          resError := none
          resValue := (if keep then s2.resValue else none) } :=
      hfields _ ha ht hn
    rcases sigRC_timers_false h2 with ⟨ha2, ht2, hn2⟩
    unfold sigStartLoad
    refine ⟨?_, ?_, ?_⟩
    · rw [ha2]; exact Nat.zero_le 1
    · rw [hn2]; exact h2.2.1
    · intro t ht3
      rw [ha2] at ht3
      cases ht3
  cases e with
  | setUsername u => exact hstart false _ rfl rfl rfl
  | loadNotes => exact hstart true _ rfl rfl rfl
  | addNote txt =>
    simp only [sigStep]
    split
    · exact hfields _ rfl rfl rfl
    · exact h
  | deleteNote i =>
    simp only [sigStep]
    split
    · exact hfields _ rfl rfl rfl
    · exact h
  | setFilterTerm t => exact hfields _ rfl rfl rfl
  | loadResolve ns =>
    simp only [sigStep]
    split
    case isFalse => exact h
    case isTrue =>
      have h2 : SigTimerInv
          { s with
            resValue := some ns
            resError := none
            resLoading := false } :=
        hfields _ rfl rfl rfl
      rcases sigRC_timers_true h2 with ⟨ha2, ht2, hn2⟩
      refine ⟨?_, ?_, ?_⟩
      · rw [ha2]; exact Nat.le_refl 1
      · rw [hn2]; exact Nat.lt_succ_of_lt h2.2.1
      · intro t ht3
        rw [ha2, List.mem_singleton] at ht3
        subst ht3
        refine ⟨?_, h2.2.1, rfl⟩
        rw [ht2]
  | loadFail msg =>
    simp only [sigStep]
    split
    case isFalse => exact h
    case isTrue =>
      have h2 : SigTimerInv
          { s with
            resValue := none
            resError := some msg
            resLoading := false } :=
        hfields _ rfl rfl rfl
      rcases sigRC_timers_false h2 with ⟨ha2, ht2, hn2⟩
      refine ⟨?_, ?_, ?_⟩
      · rw [ha2]; exact Nat.zero_le 1
      · rw [hn2]; exact h2.2.1
      · intro t ht3
        rw [ha2] at ht3
        cases ht3
  | addSuccess =>
    simp only [sigStep]
    split
    case isFalse => exact h
    case isTrue =>
      have hs2 := hstart true { s with pendingAdd := none } rfl rfl rfl
      exact ⟨hs2.1, hs2.2.1, hs2.2.2⟩
  | addError msg =>
    simp only [sigStep]
    split
    · exact hfields _ rfl rfl rfl
    · exact h
  | removeSuccess =>
    simp only [sigStep]
    split
    case isFalse => exact h
    case isTrue =>
      have hs2 := hstart true { s with pendingRemove := none } rfl rfl rfl
      exact ⟨hs2.1, hs2.2.1, hs2.2.2⟩
  | removeError msg =>
    simp only [sigStep]
    split
    · exact hfields _ rfl rfl rfl
    · exact h
  | timerFire k =>
    simp only [sigStep]
    split
    case isFalse => exact h
    case isTrue hg =>
      rcases h with ⟨hlen, hnext, hall⟩
      refine ⟨Nat.le_trans (List.length_filter_le _ _) hlen, hnext, ?_⟩
      intro t ht
      rcases List.mem_filter.mp ht with ⟨hmem, hne⟩
      rcases hall t hmem with ⟨hid, hpos, hdelay⟩
      have hnk : ¬(s.timerId == k) = true := by
        intro hbeq
        have hk : s.timerId = k := beq_iff_eq.mp hbeq
        rw [hid, hk] at hne
        simp at hne
      refine ⟨?_, hpos, hdelay⟩
      show t.handle = (if (s.timerId == k) = true then 0 else s.timerId)
      rw [if_neg hnk, hid]
  | destroy => exact hfields _ rfl rfl rfl

theorem sigReach_timerInv {s : SigState} (h : SigReach s) : SigTimerInv s := by
  induction h with
  | init =>
    refine ⟨by decide, by decide, ?_⟩
    intro t ht
    cases ht
  | step e _ ih => exact sigStep_timerInv ih e

/-- C4 counterexample: tearing down the signal-based client right after a
resolved fetch leaves the 4000 ms timeout armed instead of clearing it. -/
theorem sig_destroy_leaves_timer :
    (sigStep (sigStep sigInit (SigEv.loadResolve [])) SigEv.destroy).activeTimers
      = [Timer.mk 1 refreshDelayMs] := by decide

/-- C4 amended: after every resolved fetch of the notes list the refresh
prompt is false and a single fresh 4000 ms timeout is armed, superseding the
previous one; firing it turns the prompt true; each client instance holds at
most one armed timeout; the stream-based client clears it on teardown, while
the signal-based client's teardown leaves the armed timeout untouched. -/
theorem refresh_timer_behavior (sr : RxState) (ss : SigState)
    (ns : List Note) (t : Timer) :
    (RxReach sr → sr.activeTimers.length ≤ 1) ∧
    (SigReach ss → ss.activeTimers.length ≤ 1) ∧
    (RxReach sr → sr.aliveLoad = true → sr.pendingLoad.isSome = true →
      (rxStep sr (RxEv.loadSuccess ns)).showRefresh = false ∧
      (rxStep sr (RxEv.loadSuccess ns)).activeTimers
        = [Timer.mk sr.nextTimerHandle refreshDelayMs]) ∧
    (t ∈ sr.activeTimers →
      (rxStep sr (RxEv.timerFire t.handle)).showRefresh = true) ∧
    (RxReach sr → (rxStep sr RxEv.destroy).activeTimers = []) ∧
    (SigReach ss → ss.resLoading = true →
      (sigStep ss (SigEv.loadResolve ns)).showRefreshFlag = false ∧
      (sigStep ss (SigEv.loadResolve ns)).activeTimers
        = [Timer.mk ss.nextTimerHandle refreshDelayMs]) ∧
    (t ∈ ss.activeTimers →
      (sigStep ss (SigEv.timerFire t.handle)).showRefreshFlag = true) ∧
    (sigStep ss SigEv.destroy).activeTimers = ss.activeTimers := by
  refine ⟨?_, ?_, ?_, ?_, ?_, ?_, ?_, rfl⟩
  · intro hr
    exact (rxReach_timerInv hr).1
  · intro hr
    exact (sigReach_timerInv hr).1
  · intro hr h1 h2
    have hinv := rxReach_timerInv hr
    simp only [rxStep, h1, h2, Option.isSome_some, Bool.and_self, if_pos]
    have hclear : clearTimeoutOpt
        (rxSetLoading false { sr with notes := ns, pendingLoad := none }).refreshTimer
        (rxSetLoading false { sr with notes := ns, pendingLoad := none }).activeTimers
        = [] := by
      refine clearTimeoutOpt_of_inv ?_
      rw [RxTimerInv]
      exact hinv
    rcases rxResetRefreshTimer_timers hclear with ⟨ha, _, hs⟩
    exact ⟨hs, ha⟩
  · intro ht
    have hg : (sr.activeTimers.any fun t2 => t2.handle == t.handle) = true :=
      List.any_eq_true.mpr ⟨t, ht, beq_self_eq_true t.handle⟩
    simp only [rxStep, hg, if_pos]
  · intro hr
    show clearTimeoutOpt sr.refreshTimer sr.activeTimers = []
    exact clearTimeoutOpt_of_inv (rxReach_timerInv hr)
  · intro hr h1
    have hinv := sigReach_timerInv hr
    simp only [sigStep, h1, if_pos]
    have h2 : SigTimerInv
        { ss with
          resValue := some ns
          resError := none
          resLoading := false } := by
      rw [SigTimerInv]
      exact hinv
    rcases sigRC_timers_true h2 with ⟨ha2, _, _⟩
    exact ⟨sigRC_showRefreshFlag true _, ha2⟩
  · intro ht
    have hg : (ss.activeTimers.any fun t2 => t2.handle == t.handle) = true :=
      List.any_eq_true.mpr ⟨t, ht, beq_self_eq_true t.handle⟩
    simp only [sigStep, hg, if_pos]

/-- Witness for the amended C4 along a concrete resolve-fire-teardown trace
in each client. -/
theorem refresh_timer_behavior_witness :
    (rxStep rxInit (RxEv.loadSuccess [])).showRefresh = false ∧
    (rxStep rxInit RxEv.destroy).activeTimers = [] ∧
    (sigStep sigInit (SigEv.loadResolve [])).activeTimers
      = [Timer.mk 1 refreshDelayMs] ∧
    (sigStep sigInit SigEv.destroy).activeTimers = [] := by
  refine ⟨?_, ?_, ?_, ?_⟩
  · exact ((refresh_timer_behavior rxInit sigInit [] ⟨1, 0⟩).2.2.1 RxReach.init
      (by decide) (by decide)).1
  · exact (refresh_timer_behavior rxInit sigInit [] ⟨1, 0⟩).2.2.2.2.1 RxReach.init
  · exact ((refresh_timer_behavior rxInit sigInit [] ⟨1, 0⟩).2.2.2.2.2.1 SigReach.init
      (by decide)).2
  · exact (refresh_timer_behavior rxInit sigInit [] ⟨1, 0⟩).2.2.2.2.2.2.2

end RxVsSignal
